import Mathlib

/-!
Verification of the soundcalc core (src/soundcalc) against its
natural-language specification.

The development shallowly embeds the Python sources:
* `common/fields.py`  — `FieldParams` and the four field presets;
* `common/utils.py`   — bit-security conversion and Merkle-path sizing;
* `common/fri.py`     — FRI folding-round count, query-phase error, proof size;
* `proxgaps/unique_decoding.py`, `proxgaps/johnson_bound.py` — the two regimes;
* `zkvms/fri_based_vm.py`, `zkvms/whir_based_vm.py` — the two circuit models;
* `zkvms/best_attack.py` — the "toy problem" best-attack level.

Python floats are modelled as exact rationals/reals except where a claim
hinges on floating-point representability: there (`roundDouble`,
`isDouble`) the value stored by `math.pow` is modelled as the IEEE-754
binary64 (53-bit-mantissa) rounding of the exact integer power.
Real-valued error formulas are embedded over `ℝ` (with `Real.sqrt` for
`math.sqrt` and `Real.logb 2` for `math.log2`); the purely integral /
rational parts (constructors, proof sizes) are computable.
-/

set_option maxRecDepth 8000
set_option linter.unusedVariables false

namespace Soundcalc

/-! ## IEEE-754 binary64 integer rounding

Models the value of a Python `float` holding a (large) integer: a double
carries a 53-bit mantissa, so an integer `n ≥ 2^53` is rounded to the
nearest multiple of `2^(log2 n - 52)`, ties to even.  `math.pow(p, k)` on
exactly-representable integer arguments returns this correctly rounded
value. -/

/-- Floor of the base-2 logarithm, with explicit fuel so that the kernel
can evaluate it (`Nat.log2` uses well-founded recursion).  With fuel `f`
the result is exact for every `n < 2^(f+1)`; all numbers in this
development are far below `2^256`. -/
def log2floor : ℕ → ℕ → ℕ
  | 0, _ => 0
  | fuel + 1, n => if n ≤ 1 then 0 else log2floor fuel (n / 2) + 1

/-- IEEE-754 binary64 rounding (to nearest, ties to even) of a natural
number.  For `n < 2^53` the value is exact; otherwise the mantissa keeps
the top 53 bits of `n`. -/
def roundDouble (n : ℕ) : ℕ :=
  if n ≤ 2 ^ 53 then n
  else
    let k := log2floor 256 n
    let u := 2 ^ (k - 52)
    let q := n / u
    let r := n % u
    if 2 * r < u then q * u
    else if u < 2 * r then (q + 1) * u
    else if q % 2 = 0 then q * u else (q + 1) * u

/-- A rational that is representable as an IEEE-754 binary64 value:
`m * 2^e` with a 53-bit signed mantissa (exponent range ignored, which only
enlarges the set). -/
def isDouble (q : ℚ) : Prop :=
  ∃ m : ℤ, ∃ e : ℤ, |m| < 2 ^ 53 ∧ q = (m : ℚ) * 2 ^ e

/-- Ceiling of the base-2 logarithm (`math.ceil(math.log2 n)`), in a form
the kernel can evaluate: `ceil(log2 n) = floor(log2 (n-1)) + 1` for
`n ≥ 2`, and `0` for `n ≤ 1`. -/
def clog2 (n : ℕ) : ℕ :=
  if n ≤ 1 then 0 else log2floor 256 (n - 1) + 1

/-! ## common/fields.py -/

/-- `FieldParams` from `src/soundcalc/common/fields.py`: name, base
characteristic `p`, extension degree, stored field size `F` (a Python
float, held here as the exact rational value of that double), and the
two-adicity of `p - 1`. -/
structure FieldParams where
  name : String
  p : ℕ
  field_extension_degree : ℕ
  F : ℚ
  two_adicity : ℕ
deriving DecidableEq

/-- `base_field_element_size_bits`: `ceil(log2 p)`. -/
def base_field_element_size_bits (fp : FieldParams) : ℕ :=
  clog2 fp.p

/-- `extension_field_element_size_bits`: base size times extension degree. -/
def extension_field_element_size_bits (fp : FieldParams) : ℕ :=
  base_field_element_size_bits fp * fp.field_extension_degree

/-- `_F(p, ext_size)` from `fields.py`: `math.pow(p, ext_size)` kept as a
float, i.e. the binary64 rounding of the exact power (a natural number,
since rounding an integer to the binary64 grid yields an integer). -/
def _F (p ext_size : ℕ) : ℚ :=
  (roundDouble (p ^ ext_size) : ℚ)

def GOLDILOCKS_P : ℕ := (1 <<< 64) - (1 <<< 32) + 1

def GOLDILOCKS_TWO_ADICITY : ℕ := 32

def BABYBEAR_P : ℕ := (1 <<< 31) - (1 <<< 27) + 1

def BABYBEAR_TWO_ADICITY : ℕ := 27

def GOLDILOCKS_2 : FieldParams :=
  { name := "Goldilocks²"
    p := GOLDILOCKS_P
    field_extension_degree := 2
    F := _F GOLDILOCKS_P 2
    two_adicity := GOLDILOCKS_TWO_ADICITY }

def GOLDILOCKS_3 : FieldParams :=
  { name := "Goldilocks³"
    p := GOLDILOCKS_P
    field_extension_degree := 3
    F := _F GOLDILOCKS_P 3
    two_adicity := GOLDILOCKS_TWO_ADICITY }

def BABYBEAR_4 : FieldParams :=
  { name := "BabyBear⁴"
    p := BABYBEAR_P
    field_extension_degree := 4
    F := _F BABYBEAR_P 4
    two_adicity := BABYBEAR_TWO_ADICITY }

def BABYBEAR_5 : FieldParams :=
  { name := "BabyBear⁵"
    p := BABYBEAR_P
    field_extension_degree := 5
    F := _F BABYBEAR_P 5
    two_adicity := BABYBEAR_TWO_ADICITY }

/-! ## common/utils.py -/

/-- `get_size_of_merkle_path_bits` from `src/soundcalc/common/utils.py`.
`tree_depth - 1` is computed in ℤ because Python evaluates it as `-1` for a
single-leaf tree.  (The `assert num_leafs > 0` precondition is recorded in
the theorems that use it.) -/
def get_size_of_merkle_path_bits
    (num_leafs tuple_size element_size_bits hash_size_bits : ℕ) : ℤ :=
  (tuple_size * element_size_bits : ℕ) +
    (min (tuple_size * element_size_bits) hash_size_bits : ℕ) +
    ((clog2 num_leafs : ℤ) - 1) * hash_size_bits

/-- `get_bits_of_security_from_error`: the maximum `k` with
`error ≤ 2^(-k)`, i.e. `floor(-log2 error)`. -/
noncomputable def get_bits_of_security_from_error (error : ℝ) : ℤ :=
  ⌊-Real.logb 2 error⌋

/-! ## proxgaps: the two regimes

`proxgaps/unique_decoding.py` (UDR) and `proxgaps/johnson_bound.py` (JBR).
`dimension` parameters are `ℝ` because the FRI commit phase passes a float
dimension.  Note the differing positions of the field parameter in the two
sources: UDR's `get_error_linear`/`get_error_powers` take `field` as an
explicit argument while JBR's read `self.field` bound at construction; the
argument lists are recorded verbatim below for claim C5, and the unified
dispatchers pass the bound field either way (the formulas are unaffected). -/

/-- `UniqueDecodingRegime.get_proximity_parameter`: `(1 - rate) / 2`. -/
noncomputable def UDR_get_proximity_parameter (rate dimension : ℝ) : ℝ :=
  (1 - rate) / 2

/-- `UniqueDecodingRegime.get_max_list_size`: `1`. -/
noncomputable def UDR_get_max_list_size (rate dimension : ℝ) : ℝ :=
  1

/-- `UniqueDecodingRegime.get_error_linear`: `dimension / field.F`
(Theorem 4.1 of BCIKS20). -/
noncomputable def UDR_get_error_linear (rate dimension : ℝ) (field : FieldParams) : ℝ :=
  dimension / (field.F : ℝ)

/-- `UniqueDecodingRegime.get_error_powers`:
`error_linear * (num_functions - 1)`. -/
noncomputable def UDR_get_error_powers (rate dimension : ℝ) (field : FieldParams) (num_functions : ℕ) : ℝ :=
  UDR_get_error_linear rate dimension field * ((num_functions : ℝ) - 1)

/-- `JohnsonBoundRegime.get_proximity_parameter`: `1 - sqrt(rate) - gap`,
with `gap = sqrt(rate)/100` when `field.F > 2^150` and
`gap = max(rate/20, sqrt(rate)/100)` otherwise. -/
noncomputable def JBR_get_proximity_parameter (field : FieldParams) (rate dimension : ℝ) : ℝ :=
  1 - Real.sqrt rate -
    (if 2 ^ 150 < (field.F : ℝ) then Real.sqrt rate / 100
     else max (rate / 20) (Real.sqrt rate / 100))

/-- `JohnsonBoundRegime.get_max_list_size`: `1 / (2 * gap * sqrt(rate))`
where `gap = 1 - sqrt(rate) - proximity_parameter`. -/
noncomputable def JBR_get_max_list_size (field : FieldParams) (rate dimension : ℝ) : ℝ :=
  1 / (2 * (1 - Real.sqrt rate - JBR_get_proximity_parameter field rate dimension) *
    Real.sqrt rate)

/-- `JohnsonBoundRegime.get_m` (Theorem 4.2 of BCHKS25):
`max(ceil(sqrt(rate) / (1 - sqrt(rate) - pp)), 3)`. -/
noncomputable def JBR_get_m (field : FieldParams) (rate dimension : ℝ) : ℤ :=
  max ⌈Real.sqrt rate /
        (1 - Real.sqrt rate - JBR_get_proximity_parameter field rate dimension)⌉ 3

/-- `JohnsonBoundRegime.get_error_linear` (Theorem 4.2 of BCHKS25), with
`m_shifted = m + 0.5` and `n = dimension / rate`:
`((2*m_shifted^5 + 3*m_shifted*(pp*rate)) * n / (3*rate*sqrt(rate)) + m_shifted/sqrt(rate)) / F`. -/
noncomputable def JBR_get_error_linear (field : FieldParams) (rate dimension : ℝ) : ℝ :=
  ((2 * ((JBR_get_m field rate dimension : ℝ) + 1/2) ^ 5 +
      3 * ((JBR_get_m field rate dimension : ℝ) + 1/2) *
        (JBR_get_proximity_parameter field rate dimension * rate)) *
      (dimension / rate) / (3 * rate * Real.sqrt rate) +
    ((JBR_get_m field rate dimension : ℝ) + 1/2) / Real.sqrt rate) / (field.F : ℝ)

/-- `JohnsonBoundRegime.get_error_powers`:
`error_linear * (num_functions - 1)`. -/
noncomputable def JBR_get_error_powers (field : FieldParams) (rate dimension : ℝ)
    (num_functions : ℕ) : ℝ :=
  JBR_get_error_linear field rate dimension * ((num_functions : ℝ) - 1)

/-- The two concrete regimes, as the circuits select them. -/
inductive RegimeId
  | UDR
  | JBR
deriving DecidableEq

/-- `identifier()` of each regime. -/
def identifier : RegimeId → String
  | .UDR => "UDR"
  | .JBR => "JBR"

/-- Unified dispatch for `get_proximity_parameter` (both sources give it
the same `(rate, dimension)` parameter list). -/
noncomputable def get_proximity_parameter (r : RegimeId) (field : FieldParams)
    (rate dimension : ℝ) : ℝ :=
  match r with
  | .UDR => UDR_get_proximity_parameter rate dimension
  | .JBR => JBR_get_proximity_parameter field rate dimension

/-- Unified dispatch for `get_max_list_size`. -/
noncomputable def get_max_list_size (r : RegimeId) (field : FieldParams)
    (rate dimension : ℝ) : ℝ :=
  match r with
  | .UDR => UDR_get_max_list_size rate dimension
  | .JBR => JBR_get_max_list_size field rate dimension

/-- Unified dispatch for `get_error_linear` (UDR takes the field as an
argument, JBR reads its bound field; both receive the same field here). -/
noncomputable def get_error_linear (r : RegimeId) (field : FieldParams)
    (rate dimension : ℝ) : ℝ :=
  match r with
  | .UDR => UDR_get_error_linear rate dimension field
  | .JBR => JBR_get_error_linear field rate dimension

/-- Unified dispatch for `get_error_powers`. -/
noncomputable def get_error_powers (r : RegimeId) (field : FieldParams)
    (rate dimension : ℝ) (num_functions : ℕ) : ℝ :=
  match r with
  | .UDR => UDR_get_error_powers rate dimension field num_functions
  | .JBR => JBR_get_error_powers field rate dimension num_functions

/-! ## Positional parameter lists (for claim C5)

The exact positional parameter lists (excluding `self`) of each regime
method, transcribed from `proxgaps/unique_decoding.py`,
`proxgaps/johnson_bound.py` and the abstract declarations in
`proxgaps/proxgaps_regime.py`.  None of these methods has default values
or varargs, so a positional call with `n` arguments resolves exactly when
`n` equals the length of the parameter list. -/

def UniqueDecodingRegime_get_proximity_parameter_args : List String :=
  ["rate", "dimension"]

def UniqueDecodingRegime_get_max_list_size_args : List String :=
  ["rate", "dimension"]

def UniqueDecodingRegime_get_error_powers_args : List String :=
  ["rate", "dimension", "field", "num_functions"]

def UniqueDecodingRegime_get_error_linear_args : List String :=
  ["rate", "dimension", "field"]

def JohnsonBoundRegime_get_proximity_parameter_args : List String :=
  ["rate", "dimension"]

def JohnsonBoundRegime_get_max_list_size_args : List String :=
  ["rate", "dimension"]

def JohnsonBoundRegime_get_error_powers_args : List String :=
  ["rate", "dimension", "num_functions"]

def JohnsonBoundRegime_get_error_linear_args : List String :=
  ["rate", "dimension"]

def ProximityGapsRegime_get_error_powers_args : List String :=
  ["rate", "dimension", "field", "batch_size"]

def ProximityGapsRegime_get_error_linear_args : List String :=
  ["rate", "dimension", "field"]

/-- A positional-only Python call with `n` arguments resolves against a
method iff `n` equals the number of declared parameters. -/
def acceptsPositionalCall (args : List String) (n : ℕ) : Prop :=
  args.length = n

instance (args : List String) (n : ℕ) : Decidable (acceptsPositionalCall args n) := by
  unfold acceptsPositionalCall
  infer_instance

/-! ## common/fri.py -/

/-- `get_num_FRI_folding_rounds`: divides the witness size successively by
each folding factor (`n //= folding_factors[i]`, counting one round per
factor) and asserts the early-stop degree is reached exactly; `none`
models the assertion failing.  (`field_extension_degree` is a parameter of
the source function but unused by its body.) -/
def get_num_FRI_folding_rounds (witness_size field_extension_degree : ℕ)
    (folding_factors : List ℕ) (fri_early_stop_degree : ℕ) : Option ℕ :=
  if folding_factors.foldl (· / ·) witness_size = fri_early_stop_degree then
    some folding_factors.length
  else none

/-- `get_FRI_query_phase_error`: `(1 - theta)^num_queries * 2^(-grinding_bits)`. -/
noncomputable def get_FRI_query_phase_error (theta : ℝ) (num_queries grinding_bits : ℕ) : ℝ :=
  (1 - theta) ^ num_queries * 2 ^ (-(grinding_bits : ℤ))

/-- The domain size left after applying all folding factors (the `n` the
proof-size loop of `fri.py` ends with). -/
def foldedDomainSize (n : ℕ) (factors : List ℕ) : ℕ :=
  factors.foldl (· / ·) n

/-- The folding-round portion of `get_FRI_proof_size_bits`: per factor,
one root plus one Merkle path per query over the shrunken domain, with
siblings grouped in one leaf. -/
def FRI_folding_layers_size_bits (hash_size_bits field_size_bits num_queries : ℕ) :
    ℕ → List ℕ → ℚ
  | _, [] => 0
  | n, f :: fs =>
    (hash_size_bits : ℚ) +
      (num_queries : ℚ) *
        (get_size_of_merkle_path_bits (n / f) f field_size_bits hash_size_bits : ℚ) +
      FRI_folding_layers_size_bits hash_size_bits field_size_bits num_queries (n / f) fs

/-- `get_FRI_proof_size_bits` from `src/soundcalc/common/fri.py`: initial
root and per-query paths over the full domain with `batch_size`-tuples,
then the folding layers, then the final cleartext polynomial
`rate * n * field_size_bits` (a rational, since `rate` is a float). -/
def get_FRI_proof_size_bits (hash_size_bits field_size_bits batch_size num_queries : ℕ)
    (domain_size : ℕ) (folding_factors : List ℕ) (rate : ℚ) : ℚ :=
  (hash_size_bits : ℚ) +
    (num_queries : ℚ) *
      (get_size_of_merkle_path_bits domain_size batch_size field_size_bits hash_size_bits : ℚ) +
    FRI_folding_layers_size_bits hash_size_bits field_size_bits num_queries
      domain_size folding_factors +
    rate * (foldedDomainSize domain_size folding_factors : ℚ) * (field_size_bits : ℚ)

/-! ## zkvms/best_attack.py -/

/-- Modelled from the spec: `get_best_attack_security` as imported by
`fri_based_vm.py` (with arguments `field_size, rho, num_queries,
grinding_query_phase`) is absent from `src/`; the present
`zkvms/best_attack.py` defines `best_attack_security(params)` computing
exactly the spec's formula `error = 1/F + rho^num_queries *
2^(-grinding_query_phase)` converted to bits, which is used here. -/
noncomputable def get_best_attack_security (field_size rho : ℚ)
    (num_queries grinding_query_phase : ℕ) : ℤ :=
  get_bits_of_security_from_error
    (1 / (field_size : ℝ) + (rho : ℝ) ^ num_queries * 2 ^ (-(grinding_query_phase : ℤ)))

/-! ## zkvms/fri_based_vm.py -/

/-- `FRIBasedVMConfig` (the `rho` float is held as an exact rational). -/
structure FRIBasedVMConfig where
  name : String
  hash_size_bits : ℕ
  rho : ℚ
  trace_length : ℕ
  field : FieldParams
  num_columns : ℕ
  batch_size : ℕ
  power_batching : Bool
  num_queries : ℕ
  AIR_max_degree : ℕ
  FRI_folding_factors : List ℕ
  FRI_early_stop_degree : ℕ
  max_combo : ℕ
  grinding_query_phase : ℕ
deriving DecidableEq

/-- A constructed `FRIBasedCircuit`: the config fields plus the derived
domain size `D = trace_length / rho` and the FRI round count.  The
display-only derived values `k = round(-log2 rho)` and
`h = round(log2 trace_length)` are not needed by any claim and are not
stored. -/
structure FRIBasedCircuit where
  name : String
  hash_size_bits : ℕ
  rho : ℚ
  trace_length : ℕ
  field : FieldParams
  num_columns : ℕ
  batch_size : ℕ
  power_batching : Bool
  num_queries : ℕ
  AIR_max_degree : ℕ
  FRI_folding_factors : List ℕ
  FRI_early_stop_degree : ℕ
  max_combo : ℕ
  grinding_query_phase : ℕ
  D : ℚ
  FRI_rounds_n : ℕ
deriving DecidableEq

/-- `FRIBasedCircuit.__init__`: asserts `num_columns ≤ batch_size`,
derives `D = trace_length / rho`, and computes the folding-round count
(whose internal early-stop assertion must succeed); `none` models a failed
assertion. -/
def mkFRIBasedCircuit (config : FRIBasedVMConfig) : Option FRIBasedCircuit :=
  if config.num_columns ≤ config.batch_size then
    match get_num_FRI_folding_rounds (Int.toNat ⌊(config.trace_length : ℚ) / config.rho⌋)
        config.field.field_extension_degree config.FRI_folding_factors
        config.FRI_early_stop_degree with
    | some rounds =>
      some { name := config.name
             hash_size_bits := config.hash_size_bits
             rho := config.rho
             trace_length := config.trace_length
             field := config.field
             num_columns := config.num_columns
             batch_size := config.batch_size
             power_batching := config.power_batching
             num_queries := config.num_queries
             AIR_max_degree := config.AIR_max_degree
             FRI_folding_factors := config.FRI_folding_factors
             FRI_early_stop_degree := config.FRI_early_stop_degree
             max_combo := config.max_combo
             grinding_query_phase := config.grinding_query_phase
             D := (config.trace_length : ℚ) / config.rho
             FRI_rounds_n := rounds }
    | none => none
  else none

/-- Modelled from the spec: `regime.get_max_delta(rate, dimension, field)`
as called by `fri_based_vm.py` is absent from `src/` (the regimes there
define `get_proximity_parameter(rate, dimension)`); per the spec, the
query-phase δ is "the regime's proximity parameter at the original
rate/dimension", so `get_max_delta` is the regime's proximity parameter. -/
noncomputable def get_max_delta (r : RegimeId) (field : FieldParams)
    (rate dimension : ℝ) : ℝ :=
  get_proximity_parameter r field rate dimension

/-- Modelled from the spec: the four-argument
`regime.get_max_list_size(rate, dimension, field, delta)` called by
`FRIBasedCircuit.get_security_levels` is absent from `src/` (the regimes
define the two-argument form); per the spec the DEEP/ALI terms use "the
regime's max list size at its own δ", i.e. the regime's list-size bound
for the code. -/
noncomputable def get_max_list_size_at_delta (r : RegimeId) (rate dimension : ℝ)
    (field : FieldParams) (delta : ℝ) : ℝ :=
  get_max_list_size r field rate dimension

/-- `get_batching_error`: power batching uses `get_error_powers` with the
full batch size, otherwise `get_error_linear`. -/
noncomputable def FRIBasedCircuit.get_batching_error (c : FRIBasedCircuit)
    (regime : RegimeId) : ℝ :=
  if c.power_batching then
    get_error_powers regime c.field (c.rho : ℝ) (c.trace_length : ℝ) c.batch_size
  else
    get_error_linear regime c.field (c.rho : ℝ) (c.trace_length : ℝ)

/-- `get_commit_phase_error`: the source computes the dimension as
`trace_length / (FRI_folding_factors[round] ** (round + 1))` — the round's
own factor raised to `round + 1`, not the product of the factors used so
far.  (The list index is in range whenever `round < FRI_rounds_n`, as at
every call site; out-of-range indices default to `0` here.) -/
noncomputable def FRIBasedCircuit.get_commit_phase_error (c : FRIBasedCircuit)
    (round : ℕ) (regime : RegimeId) : ℝ :=
  get_error_powers regime c.field (c.rho : ℝ)
    ((c.trace_length : ℝ) / ((c.FRI_folding_factors.getD round 0 : ℝ) ^ (round + 1)))
    c.batch_size

/-- `get_query_phase_error`: `(1 - delta)^num_queries * 2^(-grinding)`,
with `delta = regime.get_max_delta(rho, trace_length, field)`. -/
noncomputable def FRIBasedCircuit.get_query_phase_error (c : FRIBasedCircuit)
    (regime : RegimeId) : ℝ :=
  (1 - get_max_delta regime c.field (c.rho : ℝ) (c.trace_length : ℝ)) ^ c.num_queries *
    2 ^ (-(c.grinding_query_phase : ℤ))

/-- `get_DEEP_ALI_errors`: the RISC0-style proof-system error terms,
converted to bits. -/
noncomputable def get_DEEP_ALI_errors (L_plus : ℝ) (params : FRIBasedCircuit) :
    List (String × ℤ) :=
  [("ALI", get_bits_of_security_from_error
      (L_plus * (params.num_columns : ℝ) / (params.field.F : ℝ))),
   ("DEEP", get_bits_of_security_from_error
      (L_plus *
        ((params.AIR_max_degree : ℝ) * ((params.trace_length : ℝ) + (params.max_combo : ℝ) - 1) +
          ((params.trace_length : ℝ) - 1)) /
        ((params.field.F : ℝ) - (params.trace_length : ℝ) - (params.D : ℝ))))]

/-- Python's `min` over the (always non-empty) list of a result mapping's
values. -/
def listMin : List ℤ → ℤ
  | [] => 0
  | x :: xs => xs.foldl min x

/-- `get_security_levels_for_regime`: batching, one entry per commit
round (labelled from 1), and the query phase. -/
noncomputable def FRIBasedCircuit.get_security_levels_for_regime (c : FRIBasedCircuit)
    (regime : RegimeId) : List (String × ℤ) :=
  (("batching", get_bits_of_security_from_error (c.get_batching_error regime)) ::
    (List.range c.FRI_rounds_n).map (fun i =>
      ("commit round " ++ toString (i + 1),
        get_bits_of_security_from_error (c.get_commit_phase_error i regime)))) ++
  [("query phase", get_bits_of_security_from_error (c.get_query_phase_error regime))]

/-- One regime's entry of `get_security_levels`: the per-round levels,
the DEEP/ALI proof-system levels, and the `"total"` minimum of all of
them. -/
noncomputable def FRIBasedCircuit.regime_levels_with_total (c : FRIBasedCircuit)
    (regime : RegimeId) : List (String × ℤ) :=
  let fri_levels := c.get_security_levels_for_regime regime
  let delta := get_max_delta regime c.field (c.rho : ℝ) (c.trace_length : ℝ)
  let list_size := get_max_list_size_at_delta regime (c.rho : ℝ) (c.trace_length : ℝ)
      c.field delta
  let proof_system_levels := get_DEEP_ALI_errors list_size c
  fri_levels ++ proof_system_levels ++
    [("total", listMin ((fri_levels ++ proof_system_levels).map Prod.snd))]

/-- A value of the `get_security_levels` result mapping: a regime's inner
mapping, or the direct integer of the `"best attack"` entry. -/
inductive SecEntry
  | table (levels : List (String × ℤ))
  | value (level : ℤ)

/-- `FRIBasedCircuit.get_security_levels`: one entry per regime (UDR,
JBR) plus the top-level `"best attack"` entry mapping directly to the
best-attack integer. -/
noncomputable def FRIBasedCircuit.get_security_levels (c : FRIBasedCircuit) :
    List (String × SecEntry) :=
  [("UDR", .table (c.regime_levels_with_total .UDR)),
   ("JBR", .table (c.regime_levels_with_total .JBR)),
   ("best attack", .value (get_best_attack_security c.field.F c.rho
      c.num_queries c.grinding_query_phase))]

/-- Modelled from the spec: `FRIBasedCircuit.get_proof_size_bits` calls a
variant of `get_FRI_proof_size_bits` (keywords `witness_size`,
`field_extension_degree`, `early_stop_degree`) and a module-level
`field_element_size_bits`, both absent from `src/`; per spec §4.5 the
proof size is the present `get_FRI_proof_size_bits` of `common/fri.py`
evaluated at the circuit's domain `D`, folding factors and rate, with the
field's element size in bits. -/
def FRIBasedCircuit.get_proof_size_bits (c : FRIBasedCircuit) : ℚ :=
  get_FRI_proof_size_bits c.hash_size_bits (extension_field_element_size_bits c.field)
    c.batch_size c.num_queries (Int.toNat ⌊c.D⌋) c.FRI_folding_factors c.rho

/-- The ZisK "Main" circuit (`zisk.py`: trace `2^22`, `rho = 1/2`,
folding factors `[16,16,16,8,8]`, early stop `32`, batch size 61): the
concrete circuit on which claim C1's commit-round dimension diverges. -/
def ziskMainCircuit : FRIBasedCircuit :=
  { name := "Main"
    hash_size_bits := 256
    rho := 1/2
    trace_length := 4194304
    field := GOLDILOCKS_3
    num_columns := 41
    batch_size := 61
    power_batching := true
    num_queries := 128
    AIR_max_degree := 3
    FRI_folding_factors := [16, 16, 16, 8, 8]
    FRI_early_stop_degree := 32
    max_combo := 3
    grinding_query_phase := 0
    D := 8388608
    FRI_rounds_n := 5 }

/-- The RISC0 "main" circuit (`risc0.py`: `rho = 1/4`, trace `2^21`,
BabyBear⁴, 50 queries, no grinding; `D = 2^23` folds by `[16,16,16,16]` to
the early stop `2^7`). -/
def risc0MainCircuit : FRIBasedCircuit :=
  { name := "main"
    hash_size_bits := 256
    rho := 1/4
    trace_length := 2097152
    field := BABYBEAR_4
    num_columns := 279
    batch_size := 283
    power_batching := true
    num_queries := 50
    AIR_max_degree := 4
    FRI_folding_factors := [16, 16, 16, 16]
    FRI_early_stop_degree := 128
    max_combo := 9
    grinding_query_phase := 0
    D := 8388608
    FRI_rounds_n := 4 }

/-! ## zkvms/whir_based_vm.py -/

/-- `WHIRBasedVMConfig`.  Grinding-bit entries are Python ints (possibly
negative until validated), hence `ℤ`. -/
structure WHIRBasedVMConfig where
  name : String
  hash_size_bits : ℕ
  log_inv_rate : ℕ
  num_iterations : ℕ
  folding_factor : ℕ
  field : FieldParams
  log_degree : ℕ
  batch_size : ℕ
  power_batching : Bool
  grinding_bits_batching : ℤ
  constraint_degree : ℕ
  grinding_bits_folding : List (List ℤ)
  num_queries : List ℕ
  grinding_bits_queries : List ℤ
  num_ood_samples : List ℕ
  grinding_bits_ood : List ℤ
deriving DecidableEq

/-- A constructed `WHIRBasedCircuit`: the config fields plus the derived
per-iteration schedules `log_degrees` (`m_i = m_0 - i*k`) and
`log_inv_rates` (`log_inv_rate + i*(k-1)`), both of length
`num_iterations + 1`.  The display-only `log_grinding_overhead` (a rounded
real log) is not stored; its positivity assertion is part of
construction. -/
structure WHIRBasedCircuit where
  name : String
  hash_size_bits : ℕ
  log_inv_rate : ℕ
  num_iterations : ℕ
  folding_factor : ℕ
  field : FieldParams
  log_degree : ℕ
  batch_size : ℕ
  power_batching : Bool
  grinding_bits_batching : ℤ
  constraint_degree : ℕ
  grinding_bits_folding : List (List ℤ)
  num_queries : List ℕ
  grinding_bits_queries : List ℤ
  num_ood_samples : List ℕ
  grinding_bits_ood : List ℤ
  log_degrees : List ℕ
  log_inv_rates : List ℕ
deriving DecidableEq

/-- The total grinding work `sum of 2^grinding_bits` that
`get_log_grinding_overhead` asserts positive at the end of construction
(computed after all grinding bits are validated non-negative, so `toNat`
is exact). -/
def whirGrindingSum (cfg : WHIRBasedVMConfig) : ℕ :=
  2 ^ cfg.grinding_bits_batching.toNat +
    (cfg.grinding_bits_queries.map (fun g => 2 ^ g.toNat)).sum +
    (cfg.grinding_bits_ood.map (fun g => 2 ^ g.toNat)).sum +
    (cfg.grinding_bits_folding.map (fun l => (l.map (fun g => 2 ^ g.toNat)).sum)).sum

/-- The conjunction of every `assert` in `WHIRBasedCircuit.__init__`, in
source order: constraint degree, batch size, rate/folding/iteration
bounds, enough variables to fold (`M*k ≤ m_0`), two-adicity sufficiency
(`initial_domain_log_size - k ≤ two_adicity`; the ℕ subtraction matches
Python, where a negative requirement passes trivially), array-length
checks, non-negative grinding bits, and positive total grinding work. -/
def WHIRConfigOK (cfg : WHIRBasedVMConfig) : Prop :=
  3 ≤ cfg.constraint_degree ∧
  1 ≤ cfg.batch_size ∧
  0 < cfg.log_inv_rate ∧
  1 ≤ cfg.folding_factor ∧
  1 ≤ cfg.num_iterations ∧
  cfg.num_iterations * cfg.folding_factor ≤ cfg.log_degree ∧
  cfg.log_degree + cfg.log_inv_rate - cfg.folding_factor ≤ cfg.field.two_adicity ∧
  cfg.num_ood_samples.length = cfg.num_iterations - 1 ∧
  cfg.num_queries.length = cfg.num_iterations ∧
  cfg.grinding_bits_ood.length = cfg.num_iterations - 1 ∧
  cfg.grinding_bits_queries.length = cfg.num_iterations ∧
  cfg.grinding_bits_folding.length = cfg.num_iterations ∧
  0 ≤ cfg.grinding_bits_batching ∧
  (∀ g ∈ cfg.grinding_bits_queries, 0 ≤ g) ∧
  (∀ g ∈ cfg.grinding_bits_ood, 0 ≤ g) ∧
  (∀ l ∈ cfg.grinding_bits_folding, l.length = cfg.folding_factor ∧ ∀ g ∈ l, 0 ≤ g) ∧
  0 < whirGrindingSum cfg

instance (cfg : WHIRBasedVMConfig) : Decidable (WHIRConfigOK cfg) := by
  unfold WHIRConfigOK
  infer_instance

/-- `WHIRBasedCircuit.__init__`: all assertions must pass (`none` models
an `AssertionError`), then the per-iteration schedules are derived. -/
def mkWHIRBasedCircuit (cfg : WHIRBasedVMConfig) : Option WHIRBasedCircuit :=
  if WHIRConfigOK cfg then
    some { name := cfg.name
           hash_size_bits := cfg.hash_size_bits
           log_inv_rate := cfg.log_inv_rate
           num_iterations := cfg.num_iterations
           folding_factor := cfg.folding_factor
           field := cfg.field
           log_degree := cfg.log_degree
           batch_size := cfg.batch_size
           power_batching := cfg.power_batching
           grinding_bits_batching := cfg.grinding_bits_batching
           constraint_degree := cfg.constraint_degree
           grinding_bits_folding := cfg.grinding_bits_folding
           num_queries := cfg.num_queries
           grinding_bits_queries := cfg.grinding_bits_queries
           num_ood_samples := cfg.num_ood_samples
           grinding_bits_ood := cfg.grinding_bits_ood
           log_degrees := (List.range (cfg.num_iterations + 1)).map
             (fun i => cfg.log_degree - i * cfg.folding_factor)
           log_inv_rates := (List.range (cfg.num_iterations + 1)).map
             (fun i => cfg.log_inv_rate + i * (cfg.folding_factor - 1)) }
  else none

/-- `get_code_for_iteration_and_round`: the pair `(rate, dimension)` of
`C_RS^{i,s}`, rate `2^(-log_inv_rates[i])` (invariant across rounds) and
dimension `2^(m_i - s)`.  (The source's bound assertions hold at every
call site; list indices default to 0 out of range.) -/
noncomputable def WHIRBasedCircuit.get_code_for_iteration_and_round
    (c : WHIRBasedCircuit) (iteration round : ℕ) : ℝ × ℕ :=
  ((2 : ℝ) ^ (-(c.log_inv_rates.getD iteration 0 : ℤ)),
    2 ^ (c.log_degrees.getD iteration 0 - round))

/-- `get_delta_for_iteration`: starting from `1.0`, take the minimum of
the regime's proximity parameter over the codes of rounds `0..k`. -/
noncomputable def WHIRBasedCircuit.get_delta_for_iteration (c : WHIRBasedCircuit)
    (iteration : ℕ) (regime : RegimeId) : ℝ :=
  (List.range (c.folding_factor + 1)).foldl
    (fun delta round =>
      min delta (get_proximity_parameter regime c.field
        (c.get_code_for_iteration_and_round iteration round).1
        ((c.get_code_for_iteration_and_round iteration round).2 : ℝ)))
    1

/-- `get_list_size_for_iteration_and_round`: the regime's list-size bound
for the code `C_RS^{i,s}`. -/
noncomputable def WHIRBasedCircuit.get_list_size_for_iteration_and_round
    (c : WHIRBasedCircuit) (iteration round : ℕ) (regime : RegimeId) : ℝ :=
  get_max_list_size regime c.field
    (c.get_code_for_iteration_and_round iteration round).1
    ((c.get_code_for_iteration_and_round iteration round).2 : ℝ)

/-- WHIR `get_batching_error`: power-vs-linear batching on code
`C_{0,0}`, scaled by the batching grinding. -/
noncomputable def WHIRBasedCircuit.get_batching_error (c : WHIRBasedCircuit)
    (regime : RegimeId) : ℝ :=
  (if c.power_batching then
    get_error_powers regime c.field
      (c.get_code_for_iteration_and_round 0 0).1
      ((c.get_code_for_iteration_and_round 0 0).2 : ℝ) c.batch_size
  else
    get_error_linear regime c.field
      (c.get_code_for_iteration_and_round 0 0).1
      ((c.get_code_for_iteration_and_round 0 0).2 : ℝ)) *
  2 ^ (-c.grinding_bits_batching)

/-- `epsilon_fold`: `d * ell_{i,s-1} / F` plus the regime's power error
for two functions on `C_{i,s}`, scaled by the fold grinding bits. -/
noncomputable def WHIRBasedCircuit.epsilon_fold (c : WHIRBasedCircuit)
    (iteration round : ℕ) (regime : RegimeId) : ℝ :=
  ((c.constraint_degree : ℝ) *
      c.get_list_size_for_iteration_and_round iteration (round - 1) regime /
      (c.field.F : ℝ) +
    get_error_powers regime c.field
      (c.get_code_for_iteration_and_round iteration round).1
      ((c.get_code_for_iteration_and_round iteration round).2 : ℝ) 2) *
  2 ^ (-((c.grinding_bits_folding.getD iteration []).getD (round - 1) 0))

/-- `epsilon_out`: `ell_{i,0}^2 * (2^{m_i} / (2F))^w`, scaled by the OOD
grinding bits. -/
noncomputable def WHIRBasedCircuit.epsilon_out (c : WHIRBasedCircuit)
    (iteration : ℕ) (regime : RegimeId) : ℝ :=
  c.get_list_size_for_iteration_and_round iteration 0 regime *
    c.get_list_size_for_iteration_and_round iteration 0 regime *
    ((2 ^ (c.log_degrees.getD iteration 0) : ℝ) / (2 * (c.field.F : ℝ))) ^
      (c.num_ood_samples.getD (iteration - 1) 0) *
  2 ^ (-(c.grinding_bits_ood.getD (iteration - 1) 0))

/-- `epsilon_shift`: `(1 - delta_{i-1})^{t_{i-1}} + ell_{i,0}*(t+1)/F`,
scaled by the query grinding bits. -/
noncomputable def WHIRBasedCircuit.epsilon_shift (c : WHIRBasedCircuit)
    (iteration : ℕ) (regime : RegimeId) : ℝ :=
  ((1 - c.get_delta_for_iteration (iteration - 1) regime) ^
      (c.num_queries.getD (iteration - 1) 0) +
    c.get_list_size_for_iteration_and_round iteration 0 regime *
      ((c.num_queries.getD (iteration - 1) 0 : ℝ) + 1) / (c.field.F : ℝ)) *
  2 ^ (-(c.grinding_bits_queries.getD (iteration - 1) 0))

/-- `epsilon_final`: `(1 - delta_{M-1})^{t_{M-1}}` scaled by the last
query grinding bits (`num_queries[-1]`, `grinding_bits_queries[-1]`; both
lists have length `M`).  The source also asserts `0 < delta < 1`, taken as
a hypothesis by the theorems using this. -/
noncomputable def WHIRBasedCircuit.epsilon_final (c : WHIRBasedCircuit)
    (regime : RegimeId) : ℝ :=
  (1 - c.get_delta_for_iteration (c.num_iterations - 1) regime) ^
      (c.num_queries.getD (c.num_iterations - 1) 0) *
    2 ^ (-(c.grinding_bits_queries.getD (c.num_iterations - 1) 0))

/-- WHIR `get_security_levels_for_regime`: batching (only when
`batch_size > 1`), the initial iteration's folds, per-iteration
OOD/Shift/folds for `i = 1..M-1`, the final check, and the `"total"`
minimum. -/
noncomputable def WHIRBasedCircuit.get_security_levels_for_regime
    (c : WHIRBasedCircuit) (regime : RegimeId) : List (String × ℤ) :=
  let batching : List (String × ℤ) :=
    if 1 < c.batch_size then
      [("batching", get_bits_of_security_from_error (c.get_batching_error regime))]
    else []
  let fold0 := (List.range' 1 c.folding_factor).map (fun s =>
    ("fold(i=0,s=" ++ toString s ++ ")",
      get_bits_of_security_from_error (c.epsilon_fold 0 s regime)))
  let main := (List.range' 1 (c.num_iterations - 1)).flatMap (fun i =>
    ("OOD(i=" ++ toString i ++ ")",
        get_bits_of_security_from_error (c.epsilon_out i regime)) ::
    ("Shift(i=" ++ toString i ++ ")",
        get_bits_of_security_from_error (c.epsilon_shift i regime)) ::
    (List.range' 1 c.folding_factor).map (fun s =>
      ("fold(i=" ++ toString i ++ ",s=" ++ toString s ++ ")",
        get_bits_of_security_from_error (c.epsilon_fold i s regime))))
  let levels := batching ++ fold0 ++ main ++
    [("fin", get_bits_of_security_from_error (c.epsilon_final regime))]
  levels ++ [("total", listMin (levels.map Prod.snd))]

/-- WHIR `get_security_levels`: the two regimes only (no "best attack"
entry). -/
noncomputable def WHIRBasedCircuit.get_security_levels (c : WHIRBasedCircuit) :
    List (String × SecEntry) :=
  [("UDR", .table (c.get_security_levels_for_regime .UDR)),
   ("JBR", .table (c.get_security_levels_for_regime .JBR))]

/-- WHIR `get_proof_size_bits`: initial root and sumcheck, per-iteration
root/OOD answers/sumcheck, the final `2^{m_M}` coefficients, and
per-iteration query paths over domains `2^{m_i + log_inv_rates_i}` with
leaf blocks of `2^k` (base-field elements for iteration 0, extension
thereafter). -/
def WHIRBasedCircuit.get_proof_size_bits (c : WHIRBasedCircuit) : ℤ :=
  (c.hash_size_bits : ℤ) +
    (c.folding_factor : ℤ) * ((c.constraint_degree : ℤ) + 1) *
      (extension_field_element_size_bits c.field : ℤ) +
    ((List.range' 1 (c.num_iterations - 1)).map (fun i =>
      (c.hash_size_bits : ℤ) +
        (c.num_ood_samples.getD (i - 1) 0 : ℤ) *
          (extension_field_element_size_bits c.field : ℤ) +
        (c.folding_factor : ℤ) * ((c.constraint_degree : ℤ) + 1) *
          (extension_field_element_size_bits c.field : ℤ))).sum +
    (2 : ℤ) ^ (c.log_degrees.getD c.num_iterations 0) *
      (extension_field_element_size_bits c.field : ℤ) +
    ((List.range c.num_iterations).map (fun i =>
      (c.num_queries.getD i 0 : ℤ) *
        get_size_of_merkle_path_bits
          (2 ^ (c.log_degrees.getD i 0 + c.log_inv_rates.getD i 0) /
            2 ^ c.folding_factor)
          (2 ^ c.folding_factor)
          (if i = 0 then base_field_element_size_bits c.field
           else extension_field_element_size_bits c.field)
          c.hash_size_bits)).sum

/-- The WHIR configuration `num_iterations=3, folding_factor=5,
log_degree=10` that claim C8 says construction must reject (all other
parameters well-formed). -/
def whirRejectConfig : WHIRBasedVMConfig :=
  { name := "reject"
    hash_size_bits := 256
    log_inv_rate := 1
    num_iterations := 3
    folding_factor := 5
    field := GOLDILOCKS_2
    log_degree := 10
    batch_size := 1
    power_batching := true
    grinding_bits_batching := 0
    constraint_degree := 3
    grinding_bits_folding := [[0, 0, 0, 0, 0], [0, 0, 0, 0, 0], [0, 0, 0, 0, 0]]
    num_queries := [10, 10, 10]
    grinding_bits_queries := [0, 0, 0]
    num_ood_samples := [1, 1]
    grinding_bits_ood := [0, 0] }

/-- The WHIR configuration `num_iterations=2, folding_factor=5,
log_degree=10` that claim C8 says construction must accept. -/
def whirAcceptConfig : WHIRBasedVMConfig :=
  { name := "accept"
    hash_size_bits := 256
    log_inv_rate := 1
    num_iterations := 2
    folding_factor := 5
    field := GOLDILOCKS_2
    log_degree := 10
    batch_size := 1
    power_batching := true
    grinding_bits_batching := 0
    constraint_degree := 3
    grinding_bits_folding := [[0, 0, 0, 0, 0], [0, 0, 0, 0, 0]]
    num_queries := [10, 10]
    grinding_bits_queries := [0, 0]
    num_ood_samples := [1]
    grinding_bits_ood := [0] }

/-- A minimal constructed WHIR circuit (one iteration, folding factor 1,
rate 1/2) used to instantiate the universally quantified WHIR theorems. -/
def tinyWhirCircuit : WHIRBasedCircuit :=
  { name := "tiny"
    hash_size_bits := 256
    log_inv_rate := 1
    num_iterations := 1
    folding_factor := 1
    field := GOLDILOCKS_2
    log_degree := 1
    batch_size := 1
    power_batching := true
    grinding_bits_batching := 0
    constraint_degree := 3
    grinding_bits_folding := [[0]]
    num_queries := [5]
    grinding_bits_queries := [0]
    num_ood_samples := []
    grinding_bits_ood := []
    log_degrees := [1, 0]
    log_inv_rates := [1, 1] }

/-- A rational that is an integer (the sense in which a Python float
result can be said to be "an integer"). -/
def isInt (q : ℚ) : Prop :=
  ∃ z : ℤ, q = (z : ℚ)

/-- Every folding layer of a FRI proof has at least two Merkle leaves:
the condition under which the per-layer Merkle path sizes are
non-negative (violated by degenerate configurations, see the C6
counterexample). -/
def friLayersOK : ℕ → List ℕ → Bool
  | _, [] => true
  | n, f :: fs => decide (2 ≤ n / f) && friLayersOK (n / f) fs

/-- A degenerate but constructible FRI configuration (`rho = 1`,
`trace_length = 1`, no folding rounds): every constructor assertion
passes, yet the proof size comes out negative. -/
def friDegenConfig : FRIBasedVMConfig :=
  { name := "degenerate"
    hash_size_bits := 256
    rho := 1
    trace_length := 1
    field := BABYBEAR_4
    num_columns := 1
    batch_size := 1
    power_batching := true
    num_queries := 100
    AIR_max_degree := 3
    FRI_folding_factors := []
    FRI_early_stop_degree := 1
    max_combo := 1
    grinding_query_phase := 0 }

/-- The circuit `friDegenConfig` constructs to. -/
def friDegenCircuit : FRIBasedCircuit :=
  { name := "degenerate"
    hash_size_bits := 256
    rho := 1
    trace_length := 1
    field := BABYBEAR_4
    num_columns := 1
    batch_size := 1
    power_batching := true
    num_queries := 100
    AIR_max_degree := 3
    FRI_folding_factors := []
    FRI_early_stop_degree := 1
    max_combo := 1
    grinding_query_phase := 0
    D := 1
    FRI_rounds_n := 0 }

/-- The circuit `whirAcceptConfig` constructs to. -/
def whirAcceptCircuit : WHIRBasedCircuit :=
  { name := "accept"
    hash_size_bits := 256
    log_inv_rate := 1
    num_iterations := 2
    folding_factor := 5
    field := GOLDILOCKS_2
    log_degree := 10
    batch_size := 1
    power_batching := true
    grinding_bits_batching := 0
    constraint_degree := 3
    grinding_bits_folding := [[0, 0, 0, 0, 0], [0, 0, 0, 0, 0]]
    num_queries := [10, 10]
    grinding_bits_queries := [0, 0]
    num_ood_samples := [1]
    grinding_bits_ood := [0]
    log_degrees := [10, 5, 0]
    log_inv_rates := [1, 5, 9] }

/-! ## Theorems -/

/-- No odd natural number above `2^53` is an IEEE binary64 value: a double
is `m * 2^e` with `|m| < 2^53`, and an odd integer forces `e ≤ 0`, hence
`|m| ≥ n > 2^53`. -/
lemma odd_large_not_isDouble (n : ℕ) (hodd : n % 2 = 1) (hlarge : 2 ^ 53 < n) :
    ¬ isDouble (n : ℚ) := by
  rintro ⟨m, e, hm, heq⟩
  rcases e with k | k
  · -- nonnegative exponent: `n = m * 2^k` as integers
    have hk : ((n : ℤ) : ℚ) = ((m * 2 ^ k : ℤ) : ℚ) := by
      push_cast
      simpa [zpow_natCast] using heq
    have hint : (n : ℤ) = m * 2 ^ k := by exact_mod_cast hk
    rcases Nat.eq_zero_or_pos k with hk0 | hkpos
    · subst hk0
      have hmn : m = (n : ℤ) := by omega
      have : (2 : ℤ) ^ 53 < |m| := by
        rw [hmn]
        have : (2 : ℤ) ^ 53 < (n : ℤ) := by exact_mod_cast hlarge
        simpa [abs_of_nonneg (by positivity : (0 : ℤ) ≤ (n : ℤ))] using this
      omega
    · have hdvd : (2 : ℤ) ∣ (n : ℤ) := by
        refine ⟨m * 2 ^ (k - 1), ?_⟩
        rw [hint]
        have : (2 : ℤ) ^ k = 2 * 2 ^ (k - 1) := by
          conv_lhs => rw [show k = 1 + (k - 1) by omega]
          ring
        rw [this]; ring
      have : (2 : ℕ) ∣ n := by exact_mod_cast hdvd
      omega
  · -- negative exponent `-(k+1)`: `n * 2^(k+1) = m`
    have h2 : ((2 : ℚ) ^ (k + 1)) ≠ 0 := by positivity
    have heq2 : (n : ℚ) * 2 ^ (k + 1) = (m : ℚ) := by
      have : (n : ℚ) = (m : ℚ) * ((2 : ℚ) ^ (k + 1))⁻¹ := by
        simpa [zpow_negSucc] using heq
      field_simp at this
      linarith [this]
    have hint : (n : ℤ) * 2 ^ (k + 1) = m := by exact_mod_cast heq2
    have hn : (2 : ℤ) ^ 53 < (n : ℤ) := by exact_mod_cast hlarge
    have hpow : (1 : ℤ) ≤ 2 ^ (k + 1) := one_le_pow₀ (by norm_num)
    have hm2 : (n : ℤ) ≤ m := by
      calc (n : ℤ) = (n : ℤ) * 1 := by ring
        _ ≤ (n : ℤ) * 2 ^ (k + 1) := by
            apply mul_le_mul_of_nonneg_left hpow
            positivity
        _ = m := hint
    have : m ≤ |m| := le_abs_self m
    omega

/-- **C2** (counterexample).  The claim that the stored field size `F` is
*exactly* `p ^ extension_degree` fails on the BabyBear⁴ preset: `F` holds
the binary64 value of `math.pow(p, 4)`, and `p ^ 4` is an odd number above
`2^53`, hence not binary64-representable, so the stored value differs from
the exact power. -/
theorem C2_F_not_exact_counterexample :
    BABYBEAR_4.F ≠ ((BABYBEAR_P ^ 4 : ℕ) : ℚ) ∧
    BABYBEAR_P ^ 4 % 2 = 1 ∧ 2 ^ 53 < BABYBEAR_P ^ 4 := by
  refine ⟨?_, by decide, by decide⟩
  show ((roundDouble (BABYBEAR_P ^ 4) : ℕ) : ℚ) ≠ ((BABYBEAR_P ^ 4 : ℕ) : ℚ)
  exact_mod_cast (by decide : roundDouble (BABYBEAR_P ^ 4) ≠ BABYBEAR_P ^ 4)

/-- **C2** (amended).  For every preset the stored `F` is the IEEE-754
binary64 rounding of `p ^ extension_degree`, not the exact power: each
power is odd and exceeds `2^53`, so no binary64 value equals it, and the
stored `F` differs from it — though only by a relative error of at most
`2^(-52)`. -/
theorem C2_F_double_rounding :
    (GOLDILOCKS_2.F = ((roundDouble (GOLDILOCKS_P ^ 2) : ℕ) : ℚ) ∧
     GOLDILOCKS_3.F = ((roundDouble (GOLDILOCKS_P ^ 3) : ℕ) : ℚ) ∧
     BABYBEAR_4.F = ((roundDouble (BABYBEAR_P ^ 4) : ℕ) : ℚ) ∧
     BABYBEAR_5.F = ((roundDouble (BABYBEAR_P ^ 5) : ℕ) : ℚ)) ∧
    (GOLDILOCKS_2.F ≠ ((GOLDILOCKS_P ^ 2 : ℕ) : ℚ) ∧
     GOLDILOCKS_3.F ≠ ((GOLDILOCKS_P ^ 3 : ℕ) : ℚ) ∧
     BABYBEAR_4.F ≠ ((BABYBEAR_P ^ 4 : ℕ) : ℚ) ∧
     BABYBEAR_5.F ≠ ((BABYBEAR_P ^ 5 : ℕ) : ℚ)) ∧
    (¬ isDouble ((GOLDILOCKS_P ^ 2 : ℕ) : ℚ) ∧
     ¬ isDouble ((GOLDILOCKS_P ^ 3 : ℕ) : ℚ) ∧
     ¬ isDouble ((BABYBEAR_P ^ 4 : ℕ) : ℚ) ∧
     ¬ isDouble ((BABYBEAR_P ^ 5 : ℕ) : ℚ)) ∧
    ((GOLDILOCKS_P ^ 2 - roundDouble (GOLDILOCKS_P ^ 2)) * 2 ^ 52 ≤ GOLDILOCKS_P ^ 2 ∧
     (roundDouble (GOLDILOCKS_P ^ 2) - GOLDILOCKS_P ^ 2) * 2 ^ 52 ≤ GOLDILOCKS_P ^ 2 ∧
     (GOLDILOCKS_P ^ 3 - roundDouble (GOLDILOCKS_P ^ 3)) * 2 ^ 52 ≤ GOLDILOCKS_P ^ 3 ∧
     (roundDouble (GOLDILOCKS_P ^ 3) - GOLDILOCKS_P ^ 3) * 2 ^ 52 ≤ GOLDILOCKS_P ^ 3 ∧
     (BABYBEAR_P ^ 4 - roundDouble (BABYBEAR_P ^ 4)) * 2 ^ 52 ≤ BABYBEAR_P ^ 4 ∧
     (roundDouble (BABYBEAR_P ^ 4) - BABYBEAR_P ^ 4) * 2 ^ 52 ≤ BABYBEAR_P ^ 4 ∧
     (BABYBEAR_P ^ 5 - roundDouble (BABYBEAR_P ^ 5)) * 2 ^ 52 ≤ BABYBEAR_P ^ 5 ∧
     (roundDouble (BABYBEAR_P ^ 5) - BABYBEAR_P ^ 5) * 2 ^ 52 ≤ BABYBEAR_P ^ 5) := by
  refine ⟨⟨rfl, rfl, rfl, rfl⟩, ⟨?_, ?_, ?_, ?_⟩, ⟨?_, ?_, ?_, ?_⟩, ?_⟩
  · show ((roundDouble (GOLDILOCKS_P ^ 2) : ℕ) : ℚ) ≠ ((GOLDILOCKS_P ^ 2 : ℕ) : ℚ)
    exact_mod_cast (by decide : roundDouble (GOLDILOCKS_P ^ 2) ≠ GOLDILOCKS_P ^ 2)
  · show ((roundDouble (GOLDILOCKS_P ^ 3) : ℕ) : ℚ) ≠ ((GOLDILOCKS_P ^ 3 : ℕ) : ℚ)
    exact_mod_cast (by decide : roundDouble (GOLDILOCKS_P ^ 3) ≠ GOLDILOCKS_P ^ 3)
  · show ((roundDouble (BABYBEAR_P ^ 4) : ℕ) : ℚ) ≠ ((BABYBEAR_P ^ 4 : ℕ) : ℚ)
    exact_mod_cast (by decide : roundDouble (BABYBEAR_P ^ 4) ≠ BABYBEAR_P ^ 4)
  · show ((roundDouble (BABYBEAR_P ^ 5) : ℕ) : ℚ) ≠ ((BABYBEAR_P ^ 5 : ℕ) : ℚ)
    exact_mod_cast (by decide : roundDouble (BABYBEAR_P ^ 5) ≠ BABYBEAR_P ^ 5)
  · exact odd_large_not_isDouble _ (by decide) (by decide)
  · exact odd_large_not_isDouble _ (by decide) (by decide)
  · exact odd_large_not_isDouble _ (by decide) (by decide)
  · exact odd_large_not_isDouble _ (by decide) (by decide)
  · exact ⟨by decide, by decide, by decide, by decide, by decide, by decide, by decide, by decide⟩

/-- **C5** (code bug).  The claim of identical call signatures holds for
`get_proximity_parameter` and `get_max_list_size` but fails for
`get_error_powers` and `get_error_linear`: UDR declares
`(rate, dimension, field, num_functions)` (matching the abstract base
class), while JBR declares `(rate, dimension, num_functions)` — so the
3-argument call `regime.get_error_powers(rate, dimension, batch_size)`
made by `WHIRBasedCircuit.get_batching_error` resolves for JBR but not for
UDR, and the 4-argument call made by
`FRIBasedCircuit.get_commit_phase_error` resolves for UDR but not for JBR;
no single argument list is accepted by both regimes. -/
theorem C5_signature_mismatch :
    UniqueDecodingRegime_get_proximity_parameter_args =
      JohnsonBoundRegime_get_proximity_parameter_args ∧
    UniqueDecodingRegime_get_max_list_size_args =
      JohnsonBoundRegime_get_max_list_size_args ∧
    UniqueDecodingRegime_get_error_powers_args ≠
      JohnsonBoundRegime_get_error_powers_args ∧
    UniqueDecodingRegime_get_error_linear_args ≠
      JohnsonBoundRegime_get_error_linear_args ∧
    JohnsonBoundRegime_get_error_powers_args ≠
      ProximityGapsRegime_get_error_powers_args ∧
    UniqueDecodingRegime_get_error_powers_args.length = 4 ∧
    JohnsonBoundRegime_get_error_powers_args.length = 3 ∧
    acceptsPositionalCall JohnsonBoundRegime_get_error_powers_args 3 ∧
    ¬ acceptsPositionalCall UniqueDecodingRegime_get_error_powers_args 3 ∧
    acceptsPositionalCall UniqueDecodingRegime_get_error_powers_args 4 ∧
    ¬ acceptsPositionalCall JohnsonBoundRegime_get_error_powers_args 4 := by
  refine ⟨rfl, rfl, ?_, ?_, ?_, rfl, rfl, rfl, ?_, rfl, ?_⟩ <;> decide

/-- **C7** (counterexample).  The claim that JBR's proximity parameter
lies strictly between `0` and `1 - sqrt(rate)` for *every* rate in (0,1)
is false: at `rate = 39601/40000` (so `sqrt(rate) = 199/200`) on the
BabyBear⁴ field (whose `F` is below `2^150`, selecting the conservative
gap `max(rate/20, sqrt(rate)/100) = rate/20`), the result is negative. -/
theorem C7_jbr_delta_nonpositive :
    JBR_get_proximity_parameter BABYBEAR_4 (39601/40000) 1024 < 0 ∧
    (0 : ℝ) < 39601/40000 ∧ (39601/40000 : ℝ) < 1 := by
  refine ⟨?_, by norm_num, by norm_num⟩
  have hs : Real.sqrt (39601/40000 : ℝ) = 199/200 := by
    rw [show (39601/40000 : ℝ) = (199/200) ^ 2 by norm_num]
    exact Real.sqrt_sq (by norm_num)
  have hF : (BABYBEAR_4.F : ℝ) ≤ 2 ^ 150 := by
    have h : (BABYBEAR_4.F) ≤ (2 : ℚ) ^ 150 := by
      show ((roundDouble (BABYBEAR_P ^ 4) : ℕ) : ℚ) ≤ _
      have h2 : roundDouble (BABYBEAR_P ^ 4) ≤ 2 ^ 150 := by decide
      exact_mod_cast h2
    exact_mod_cast h
  unfold JBR_get_proximity_parameter
  rw [if_neg (not_lt.mpr hF), hs, max_eq_left (by norm_num)]
  norm_num

/-- **C7** (amended).  For every field and every rate in (0,1): UDR's
proximity parameter is `(1 - rate)/2` and lies below `1 - sqrt(rate)`, and
JBR's proximity parameter also lies below `1 - sqrt(rate)` (its gap is
positive); but JBR's value is *not* always positive (see the
counterexample), so only the upper bound survives. -/
theorem C7_proximity_below_johnson (field : FieldParams) (rate dimension : ℝ)
    (h0 : 0 < rate) (h1 : rate < 1) :
    UDR_get_proximity_parameter rate dimension = (1 - rate) / 2 ∧
    UDR_get_proximity_parameter rate dimension < 1 - Real.sqrt rate ∧
    JBR_get_proximity_parameter field rate dimension < 1 - Real.sqrt rate := by
  have hs0 : 0 < Real.sqrt rate := Real.sqrt_pos.mpr h0
  have hs1 : Real.sqrt rate < 1 := by
    have := Real.sqrt_lt_sqrt (le_of_lt h0) h1
    simpa using this
  have hsq : Real.sqrt rate * Real.sqrt rate = rate := Real.mul_self_sqrt (le_of_lt h0)
  refine ⟨rfl, ?_, ?_⟩
  · unfold UDR_get_proximity_parameter
    nlinarith [mul_pos (sub_pos.mpr hs1) (sub_pos.mpr hs1)]
  · unfold JBR_get_proximity_parameter
    have hgap : 0 < (if 2 ^ 150 < (field.F : ℝ) then Real.sqrt rate / 100
        else max (rate / 20) (Real.sqrt rate / 100)) := by
      split_ifs
      · positivity
      · exact lt_max_of_lt_right (by positivity)
    linarith

/-- **C7** (witness).  The amended statement applied at `rate = 1/4`,
`dimension = 1024`, on BabyBear⁴. -/
theorem C7_proximity_below_johnson_witness :
    ((0 : ℝ) < 1/4 ∧ (1/4 : ℝ) < 1) ∧
    (UDR_get_proximity_parameter (1/4) 1024 = (1 - 1/4) / 2 ∧
     UDR_get_proximity_parameter (1/4) 1024 < 1 - Real.sqrt (1/4) ∧
     JBR_get_proximity_parameter BABYBEAR_4 (1/4) 1024 < 1 - Real.sqrt (1/4)) :=
  ⟨⟨by norm_num, by norm_num⟩,
    C7_proximity_below_johnson BABYBEAR_4 (1/4) 1024 (by norm_num) (by norm_num)⟩

/-- **C1** (code bug).  The claim says the `commit round i` error is
`get_error_powers` at dimension `trace_length / (f_0 * … * f_{i-1})`; the
code (`get_commit_phase_error`) instead uses
`trace_length / f_{i-1} ^ i`.  On the ZisK "Main" circuit (folding
factors `[16,16,16,8,8]`), at commit round 4 (round index 3) the code's
dimension is `2^22 / 8^4 = 1024` while the claimed dimension is
`2^22 / (16·16·16·8) = 128`, and the two UDR errors differ. -/
theorem C1_commit_round_dimension_bug :
    mkFRIBasedCircuit
      { name := "Main", hash_size_bits := 256, rho := 1/2, trace_length := 4194304,
        field := GOLDILOCKS_3, num_columns := 41, batch_size := 61, power_batching := true,
        num_queries := 128, AIR_max_degree := 3, FRI_folding_factors := [16, 16, 16, 8, 8],
        FRI_early_stop_degree := 32, max_combo := 3, grinding_query_phase := 0 } =
      some ziskMainCircuit ∧
    ziskMainCircuit.get_commit_phase_error 3 .UDR =
      UDR_get_error_powers (1/2) ((4194304 : ℝ) / 8 ^ 4) GOLDILOCKS_3 61 ∧
    ziskMainCircuit.get_commit_phase_error 3 .UDR ≠
      UDR_get_error_powers (1/2) ((4194304 : ℝ) / (16 * 16 * 16 * 8)) GOLDILOCKS_3 61 := by
  have hFq : (0 : ℚ) < GOLDILOCKS_3.F := by
    show (0 : ℚ) < ((roundDouble (GOLDILOCKS_P ^ 3) : ℕ) : ℚ)
    exact_mod_cast (by decide : 0 < roundDouble (GOLDILOCKS_P ^ 3))
  refine ⟨?_, ?_, ?_⟩
  · unfold mkFRIBasedCircuit get_num_FRI_folding_rounds
    norm_num [ziskMainCircuit, FRIBasedCircuit.mk.injEq]
    rw [show ((8388608 : ℤ).toNat) = 8388608 from rfl]
    norm_num
  · show UDR_get_error_powers ((1/2 : ℚ) : ℝ)
        ((4194304 : ℝ) / (((8 : ℕ) : ℝ)) ^ 4) GOLDILOCKS_3 61 = _
    norm_num
  · show UDR_get_error_powers ((1/2 : ℚ) : ℝ)
        ((4194304 : ℝ) / (((8 : ℕ) : ℝ)) ^ 4) GOLDILOCKS_3 61 ≠ _
    unfold UDR_get_error_powers UDR_get_error_linear
    intro h
    field_simp at h
    rcases h with h | h
    · norm_num at h
    · exact (ne_of_gt hFq) h

/-- **C3** (confirmed).  `get_security_levels()` always contains a
top-level `"best attack"` entry mapping directly to
`floor(-log2(1/F + rho^num_queries * 2^(-grinding_query_phase)))`; on the
RISC0-style circuit (`rho = 1/4`, trace `2^21`, BabyBear⁴, 50 queries, no
grinding) the entry equals `floor(-log2(1/F + (1/4)^50))` for that
field's `F`. -/
theorem C3_best_attack_level :
    (∀ c : FRIBasedCircuit,
      (FRIBasedCircuit.get_security_levels c).lookup "best attack" =
        some (SecEntry.value (get_bits_of_security_from_error
          (1 / (c.field.F : ℝ) + (c.rho : ℝ) ^ c.num_queries *
            2 ^ (-(c.grinding_query_phase : ℤ)))))) ∧
    mkFRIBasedCircuit
      { name := "main", hash_size_bits := 256, rho := 1/4, trace_length := 2097152,
        field := BABYBEAR_4, num_columns := 279, batch_size := 283, power_batching := true,
        num_queries := 50, AIR_max_degree := 4, FRI_folding_factors := [16, 16, 16, 16],
        FRI_early_stop_degree := 128, max_combo := 9, grinding_query_phase := 0 } =
      some risc0MainCircuit ∧
    (FRIBasedCircuit.get_security_levels risc0MainCircuit).lookup "best attack" =
      some (SecEntry.value ⌊-Real.logb 2 (1 / (BABYBEAR_4.F : ℝ) + (1/4 : ℝ) ^ 50)⌋) := by
  refine ⟨fun c => rfl, ?_, ?_⟩
  · unfold mkFRIBasedCircuit get_num_FRI_folding_rounds
    norm_num [risc0MainCircuit, FRIBasedCircuit.mk.injEq]
    rw [show ((8388608 : ℤ).toNat) = 8388608 from rfl]
    norm_num
  have h1 : (FRIBasedCircuit.get_security_levels risc0MainCircuit).lookup "best attack" =
      some (SecEntry.value (get_bits_of_security_from_error
        (1 / (BABYBEAR_4.F : ℝ) + ((1/4 : ℚ) : ℝ) ^ 50 * 2 ^ (-((0 : ℕ) : ℤ))))) := rfl
  have hclean : (1 : ℝ) / (BABYBEAR_4.F : ℝ) + ((1/4 : ℚ) : ℝ) ^ 50 * 2 ^ (-((0 : ℕ) : ℤ)) =
      1 / (BABYBEAR_4.F : ℝ) + (1/4 : ℝ) ^ 50 := by
    push_cast
    norm_num
  rw [h1, hclean]
  rfl

/-- **C4** (confirmed).  For both regimes, the FRI `query phase` error is
`(1 - δ)^num_queries * 2^(-grinding_query_phase)` with δ the regime's
proximity parameter at the original rate `rho` and original dimension
`trace_length`; spelled out, δ is `(1 - rho)/2` for UDR and
`1 - sqrt(rho) - gap` for JBR. -/
theorem C4_query_phase_error :
    (∀ c : FRIBasedCircuit, ∀ r : RegimeId,
      c.get_query_phase_error r =
        (1 - get_proximity_parameter r c.field (c.rho : ℝ) (c.trace_length : ℝ)) ^
            c.num_queries *
          2 ^ (-(c.grinding_query_phase : ℤ))) ∧
    (∀ c : FRIBasedCircuit,
      c.get_query_phase_error .UDR =
        (1 - (1 - (c.rho : ℝ)) / 2) ^ c.num_queries * 2 ^ (-(c.grinding_query_phase : ℤ))) ∧
    (∀ c : FRIBasedCircuit,
      c.get_query_phase_error .JBR =
        (1 - (1 - Real.sqrt (c.rho : ℝ) -
            (if 2 ^ 150 < (c.field.F : ℝ) then Real.sqrt (c.rho : ℝ) / 100
             else max ((c.rho : ℝ) / 20) (Real.sqrt (c.rho : ℝ) / 100)))) ^ c.num_queries *
          2 ^ (-(c.grinding_query_phase : ℤ))) :=
  ⟨fun c r => rfl, fun c => rfl, fun c => rfl⟩

/-- **C8** (confirmed).  WHIR construction fails for every configuration
with `num_iterations * folding_factor > log_degree` (an earlier assertion
failing also aborts construction); in particular it rejects
`num_iterations=3, folding_factor=5, log_degree=10`, and it succeeds on
`num_iterations=2, folding_factor=5, log_degree=10` with the remaining
parameters valid. -/
theorem C8_whir_construction_validation :
    (∀ cfg : WHIRBasedVMConfig,
      cfg.log_degree < cfg.num_iterations * cfg.folding_factor →
      mkWHIRBasedCircuit cfg = none) ∧
    mkWHIRBasedCircuit whirRejectConfig = none ∧
    (mkWHIRBasedCircuit whirAcceptConfig).isSome = true := by
  refine ⟨?_, by decide, by decide⟩
  intro cfg h
  unfold mkWHIRBasedCircuit
  rw [if_neg]
  intro hok
  exact absurd hok.2.2.2.2.2.1 (not_le.mpr h)

/-- **C8** (witness).  The universally quantified rejection applied to
the concrete `3 × 5 > 10` configuration. -/
theorem C8_whir_construction_validation_witness :
    whirRejectConfig.log_degree <
        whirRejectConfig.num_iterations * whirRejectConfig.folding_factor ∧
    mkWHIRBasedCircuit whirRejectConfig = none :=
  ⟨by decide, C8_whir_construction_validation.1 whirRejectConfig (by decide)⟩

/-- Auxiliary: folding a constant function through `min` starting from
`d` over a non-empty list yields `min d p`. -/
lemma foldl_min_const (p : ℝ) (f : ℕ → ℝ) (hf : ∀ s, f s = p) :
    ∀ (l : List ℕ) (d : ℝ), l ≠ [] →
      List.foldl (fun a s => min a (f s)) d l = min d p := by
  intro l
  induction l with
  | nil => intro d hd; exact absurd rfl hd
  | cons x xs ih =>
    intro d _
    rcases eq_or_ne xs [] with hxs | hxs
    · subst hxs
      simp [hf x]
    · have := ih (min d (f x)) hxs
      simpa [this, hf x, min_assoc] using this.trans (by rw [hf x, min_assoc, min_self])

/-- **C10** (confirmed).  Both regimes' proximity parameters are
independent of the dimension argument, and consequently each WHIR
per-iteration δ (the minimum of the proximity parameter over rounds
`s = 0..k`, starting from the sentinel `1.0`) equals the proximity
parameter of that iteration's round-0 code. -/
theorem C10_delta_dimension_independent :
    (∀ (r : RegimeId) (field : FieldParams) (rate d1 d2 : ℝ),
      get_proximity_parameter r field rate d1 = get_proximity_parameter r field rate d2) ∧
    (∀ (c : WHIRBasedCircuit) (r : RegimeId) (i : ℕ), i < c.num_iterations →
      c.get_delta_for_iteration i r =
        get_proximity_parameter r c.field
          (c.get_code_for_iteration_and_round i 0).1
          ((c.get_code_for_iteration_and_round i 0).2 : ℝ)) := by
  constructor
  · intro r field rate d1 d2
    cases r <;> rfl
  · intro c r i _
    set p := get_proximity_parameter r c.field
      (c.get_code_for_iteration_and_round i 0).1
      ((c.get_code_for_iteration_and_round i 0).2 : ℝ) with hp
    have hrate : (0 : ℝ) < (c.get_code_for_iteration_and_round i 0).1 := by
      unfold WHIRBasedCircuit.get_code_for_iteration_and_round
      positivity
    have hconst : ∀ s : ℕ,
        get_proximity_parameter r c.field
          (c.get_code_for_iteration_and_round i s).1
          ((c.get_code_for_iteration_and_round i s).2 : ℝ) = p := by
      intro s
      rw [hp]
      have hr : (c.get_code_for_iteration_and_round i s).1 =
          (c.get_code_for_iteration_and_round i 0).1 := rfl
      rw [hr]
      cases r <;> rfl
    have hp1 : p ≤ 1 := by
      rw [hp]
      cases r with
      | UDR =>
        show (1 - (c.get_code_for_iteration_and_round i 0).1) / 2 ≤ 1
        nlinarith [hrate]
      | JBR =>
        show 1 - Real.sqrt (c.get_code_for_iteration_and_round i 0).1 - _ ≤ 1
        have hs : 0 ≤ Real.sqrt (c.get_code_for_iteration_and_round i 0).1 :=
          Real.sqrt_nonneg _
        have hgap : 0 ≤ (if 2 ^ 150 < (c.field.F : ℝ) then
            Real.sqrt (c.get_code_for_iteration_and_round i 0).1 / 100
          else max ((c.get_code_for_iteration_and_round i 0).1 / 20)
            (Real.sqrt (c.get_code_for_iteration_and_round i 0).1 / 100)) := by
          split_ifs
          · positivity
          · exact le_max_of_le_right (by positivity)
        linarith
    unfold WHIRBasedCircuit.get_delta_for_iteration
    rw [foldl_min_const p _ hconst _ _ (by simp), min_eq_right hp1]

/-- **C10** (witness).  The δ equation applied at iteration 0 of the
minimal WHIR circuit under UDR. -/
theorem C10_delta_dimension_independent_witness :
    0 < tinyWhirCircuit.num_iterations ∧
    tinyWhirCircuit.get_delta_for_iteration 0 .UDR =
      get_proximity_parameter .UDR tinyWhirCircuit.field
        (tinyWhirCircuit.get_code_for_iteration_and_round 0 0).1
        ((tinyWhirCircuit.get_code_for_iteration_and_round 0 0).2 : ℝ) :=
  ⟨by decide, C10_delta_dimension_independent.2 tinyWhirCircuit .UDR 0 (by decide)⟩

/-- Auxiliary: the bit-security conversion is antitone on positive
errors — a smaller positive error gives at least as many bits. -/
lemma bits_anti {x y : ℝ} (hx : 0 < x) (hxy : x ≤ y) :
    get_bits_of_security_from_error y ≤ get_bits_of_security_from_error x := by
  unfold get_bits_of_security_from_error
  have h := Real.logb_le_logb_of_le (by norm_num : (1 : ℝ) < 2) hx hxy
  exact Int.floor_mono (by linarith)

/-- Auxiliary: with `0 < δ < 1`, more queries never lose bits for an
error of the shape `(1 - δ)^q * 2^z`. -/
lemma bits_query_mono (δ : ℝ) (z : ℤ) (q q' : ℕ) (hq : q ≤ q')
    (h0 : 0 < δ) (h1 : δ < 1) :
    get_bits_of_security_from_error ((1 - δ) ^ q * 2 ^ z) ≤
      get_bits_of_security_from_error ((1 - δ) ^ q' * 2 ^ z) := by
  have hd0 : (0 : ℝ) < 1 - δ := by linarith
  have hd1 : (1 : ℝ) - δ ≤ 1 := by linarith
  apply bits_anti
  · exact mul_pos (pow_pos hd0 q') (zpow_pos (by norm_num) z)
  · exact mul_le_mul_of_nonneg_right (pow_le_pow_of_le_one (le_of_lt hd0) hd1 hq)
      (le_of_lt (zpow_pos (by norm_num) z))

/-- **C9** (confirmed).  With everything else fixed and the relevant δ
strictly between 0 and 1, increasing a query count never decreases the
reported bit level: for FRI the `query phase` level under either regime,
and for WHIR the `fin` level when the last entry of `num_queries` is
increased. -/
theorem C9_queries_monotonicity :
    (∀ (c : FRIBasedCircuit) (r : RegimeId) (q q' : ℕ), q ≤ q' →
      0 < get_max_delta r c.field (c.rho : ℝ) (c.trace_length : ℝ) →
      get_max_delta r c.field (c.rho : ℝ) (c.trace_length : ℝ) < 1 →
      get_bits_of_security_from_error
          (FRIBasedCircuit.get_query_phase_error { c with num_queries := q } r) ≤
        get_bits_of_security_from_error
          (FRIBasedCircuit.get_query_phase_error { c with num_queries := q' } r)) ∧
    (∀ (c : WHIRBasedCircuit) (r : RegimeId) (t t' : ℕ), t ≤ t' →
      0 < c.get_delta_for_iteration (c.num_iterations - 1) r →
      c.get_delta_for_iteration (c.num_iterations - 1) r < 1 →
      get_bits_of_security_from_error
          (WHIRBasedCircuit.epsilon_final
            { c with num_queries := c.num_queries.set (c.num_iterations - 1) t } r) ≤
        get_bits_of_security_from_error
          (WHIRBasedCircuit.epsilon_final
            { c with num_queries := c.num_queries.set (c.num_iterations - 1) t' } r)) := by
  constructor
  · intro c r q q' hq h0 h1
    exact bits_query_mono _ _ q q' hq h0 h1
  · intro c r t t' ht h0 h1
    have heq : ∀ a : ℕ,
        WHIRBasedCircuit.epsilon_final
            { c with num_queries := c.num_queries.set (c.num_iterations - 1) a } r =
          (1 - c.get_delta_for_iteration (c.num_iterations - 1) r) ^
              ((c.num_queries.set (c.num_iterations - 1) a).getD (c.num_iterations - 1) 0) *
            2 ^ (-(c.grinding_bits_queries.getD (c.num_iterations - 1) 0)) :=
      fun a => rfl
    rw [heq t, heq t']
    rcases lt_or_ge (c.num_iterations - 1) c.num_queries.length with hlt | hge
    · have hset : ∀ a : ℕ,
          (c.num_queries.set (c.num_iterations - 1) a).getD (c.num_iterations - 1) 0 = a := by
        intro a
        rw [List.getD_eq_getElem?_getD, List.getElem?_set_self',
          List.getElem?_eq_getElem hlt]
        rfl
      rw [hset t, hset t']
      exact bits_query_mono _ _ t t' ht h0 h1
    · rw [List.set_eq_of_length_le hge, List.set_eq_of_length_le hge]

/-- **C9** (witness).  Both parts applied at a concrete input:
the ZisK-style FRI circuit under UDR with 5 ≤ 6 queries (δ = 1/4), and
the minimal WHIR circuit under UDR with its last query count raised from
5 to 6 (δ = 1/4). -/
theorem C9_queries_monotonicity_witness :
    get_bits_of_security_from_error
        (FRIBasedCircuit.get_query_phase_error { ziskMainCircuit with num_queries := 5 } .UDR) ≤
      get_bits_of_security_from_error
        (FRIBasedCircuit.get_query_phase_error { ziskMainCircuit with num_queries := 6 } .UDR) ∧
    get_bits_of_security_from_error
        (WHIRBasedCircuit.epsilon_final
          { tinyWhirCircuit with
            num_queries := tinyWhirCircuit.num_queries.set
              (tinyWhirCircuit.num_iterations - 1) 5 } .UDR) ≤
      get_bits_of_security_from_error
        (WHIRBasedCircuit.epsilon_final
          { tinyWhirCircuit with
            num_queries := tinyWhirCircuit.num_queries.set
              (tinyWhirCircuit.num_iterations - 1) 6 } .UDR) := by
  have hfri : get_max_delta .UDR ziskMainCircuit.field (ziskMainCircuit.rho : ℝ)
      (ziskMainCircuit.trace_length : ℝ) = 1/4 := by
    show (1 - ((1/2 : ℚ) : ℝ)) / 2 = 1/4
    norm_num
  have hwhir : tinyWhirCircuit.get_delta_for_iteration
      (tinyWhirCircuit.num_iterations - 1) .UDR = 1/4 := by
    show List.foldl _ (1 : ℝ) (List.range (1 + 1)) = 1/4
    rw [show (1 + 1 : ℕ) = 2 from rfl, show List.range 2 = [0, 1] from rfl]
    show min (min 1 ((1 - (2 : ℝ) ^ (-(1 : ℤ))) / 2)) ((1 - (2 : ℝ) ^ (-(1 : ℤ))) / 2) = 1/4
    norm_num
  constructor
  · exact C9_queries_monotonicity.1 ziskMainCircuit .UDR 5 6 (by norm_num)
      (by rw [hfri]; norm_num) (by rw [hfri]; norm_num)
  · exact C9_queries_monotonicity.2 tinyWhirCircuit .UDR 5 6 (by norm_num)
      (by rw [hwhir]; norm_num) (by rw [hwhir]; norm_num)

/-- Auxiliary: `clog2` of a number at least 2 is at least 1. -/
lemma clog2_pos {n : ℕ} (h : 2 ≤ n) : 1 ≤ clog2 n := by
  unfold clog2
  rw [if_neg (by omega)]
  omega

/-- Auxiliary: a Merkle path over at least two leaves has non-negative
size (the co-path length `depth - 1` is non-negative). -/
lemma merkle_path_nonneg {leafs t e hsh : ℕ} (h : 2 ≤ leafs) :
    0 ≤ get_size_of_merkle_path_bits leafs t e hsh := by
  unfold get_size_of_merkle_path_bits
  have h1 : (1 : ℤ) ≤ (clog2 leafs : ℤ) := by exact_mod_cast clog2_pos h
  have h2 : (0 : ℤ) ≤ ((clog2 leafs : ℤ) - 1) * (hsh : ℤ) :=
    mul_nonneg (by omega) (by positivity)
  have ha : (0 : ℤ) ≤ ((t * e : ℕ) : ℤ) := Int.ofNat_nonneg _
  have hb : (0 : ℤ) ≤ ((min (t * e) hsh : ℕ) : ℤ) := Int.ofNat_nonneg _
  linarith

lemma isInt_add {a b : ℚ} (ha : isInt a) (hb : isInt b) : isInt (a + b) := by
  obtain ⟨x, rfl⟩ := ha
  obtain ⟨y, rfl⟩ := hb
  exact ⟨x + y, by push_cast; ring⟩

lemma isInt_mul {a b : ℚ} (ha : isInt a) (hb : isInt b) : isInt (a * b) := by
  obtain ⟨x, rfl⟩ := ha
  obtain ⟨y, rfl⟩ := hb
  exact ⟨x * y, by push_cast; ring⟩

lemma isInt_natCast (n : ℕ) : isInt (n : ℚ) :=
  ⟨n, by push_cast; ring⟩

lemma isInt_intCast (z : ℤ) : isInt ((z : ℚ)) :=
  ⟨z, rfl⟩

/-- Auxiliary: the folding-layer part of the FRI proof size is
non-negative when every layer keeps at least two leaves. -/
lemma fri_layers_nonneg (hash e q : ℕ) :
    ∀ (factors : List ℕ) (n : ℕ), friLayersOK n factors = true →
      0 ≤ FRI_folding_layers_size_bits hash e q n factors := by
  intro factors
  induction factors with
  | nil =>
    intro n _
    simp [FRI_folding_layers_size_bits]
  | cons f fs ih =>
    intro n hok
    simp only [friLayersOK, Bool.and_eq_true, decide_eq_true_eq] at hok
    obtain ⟨h2, hrec⟩ := hok
    unfold FRI_folding_layers_size_bits
    have hm : (0 : ℚ) ≤ ((get_size_of_merkle_path_bits (n / f) f e hash : ℤ) : ℚ) := by
      exact_mod_cast merkle_path_nonneg h2
    have hq : (0 : ℚ) ≤ (q : ℚ) := by positivity
    have := ih (n / f) hrec
    have hh : (0 : ℚ) ≤ (hash : ℚ) := by positivity
    nlinarith

/-- Auxiliary: the folding-layer part of the FRI proof size is an
integer. -/
lemma fri_layers_isInt (hash e q : ℕ) :
    ∀ (factors : List ℕ) (n : ℕ),
      isInt (FRI_folding_layers_size_bits hash e q n factors) := by
  intro factors
  induction factors with
  | nil =>
    intro n
    exact ⟨0, by simp [FRI_folding_layers_size_bits]⟩
  | cons f fs ih =>
    intro n
    unfold FRI_folding_layers_size_bits
    exact isInt_add (isInt_add (isInt_natCast hash)
      (isInt_mul (isInt_natCast q) (isInt_intCast _))) (ih (n / f))

/-- Auxiliary: `getD` through a `range`-and-map list. -/
lemma getD_range_map (f : ℕ → ℕ) (n i d : ℕ) (h : i < n) :
    ((List.range n).map f).getD i d = f i := by
  rw [List.getD_eq_getElem?_getD, List.getElem?_map, List.getElem?_range h]
  rfl

/-- **C6** (counterexample).  The claim that `get_proof_size_bits()` is a
non-negative integer for every successfully constructed circuit fails:
the degenerate FRI configuration (`rho = 1`, `trace_length = 1`, no
folding factors, 100 queries, BabyBear⁴) passes every constructor check,
yet its single-leaf Merkle trees give paths of `-8` bits each and the
total proof size is `-420`. -/
theorem C6_fri_proof_size_negative :
    mkFRIBasedCircuit friDegenConfig = some friDegenCircuit ∧
    FRIBasedCircuit.get_proof_size_bits friDegenCircuit = -420 ∧
    ¬ (0 : ℚ) ≤ -420 := by
  refine ⟨?_, ?_, by norm_num⟩
  · unfold mkFRIBasedCircuit get_num_FRI_folding_rounds
    norm_num [friDegenConfig, friDegenCircuit, FRIBasedCircuit.mk.injEq]
  · have hext : extension_field_element_size_bits BABYBEAR_4 = 124 := by decide
    have hmp : get_size_of_merkle_path_bits 1 1 124 256 = -8 := by decide
    unfold FRIBasedCircuit.get_proof_size_bits
    rw [show friDegenCircuit.D = 1 from rfl, show Int.toNat ⌊(1 : ℚ)⌋ = 1 by norm_num]
    show (256 : ℚ) + (100 : ℕ) *
        ((get_size_of_merkle_path_bits 1 1 (extension_field_element_size_bits BABYBEAR_4)
          256 : ℤ) : ℚ) +
      FRI_folding_layers_size_bits 256 (extension_field_element_size_bits BABYBEAR_4) 100 1 [] +
      1 * ((foldedDomainSize 1 [] : ℕ) : ℚ) * ((extension_field_element_size_bits BABYBEAR_4 : ℕ) : ℚ) = -420
    rw [hext, hmp]
    show (256 : ℚ) + (100 : ℕ) * ((-8 : ℤ) : ℚ) + 0 + 1 * ((1 : ℕ) : ℚ) * ((124 : ℕ) : ℚ) = -420
    norm_num

/-- **C6** (amended).  WHIR proof sizes are non-negative integers for
every constructed circuit; the FRI proof size (a rational, since the
final term multiplies by the float rate) is a non-negative integer
whenever every Merkle layer keeps at least two leaves, the rate is
non-negative, and the final cleartext-polynomial term
`rate * final_domain * field_bits` is an integer — conditions every
realistic preset satisfies but which the constructor does not enforce
(see the counterexample). -/
theorem C6_proof_size_nonneg :
    (∀ (cfg : WHIRBasedVMConfig) (c : WHIRBasedCircuit),
      mkWHIRBasedCircuit cfg = some c → 0 ≤ c.get_proof_size_bits) ∧
    (∀ (hash field_bits batch nq domain : ℕ) (factors : List ℕ) (rate : ℚ),
      2 ≤ domain → friLayersOK domain factors = true → 0 ≤ rate →
      isInt (rate * (foldedDomainSize domain factors : ℚ) * (field_bits : ℚ)) →
      0 ≤ get_FRI_proof_size_bits hash field_bits batch nq domain factors rate ∧
      isInt (get_FRI_proof_size_bits hash field_bits batch nq domain factors rate)) := by
  constructor
  · intro cfg c h
    unfold mkWHIRBasedCircuit at h
    split_ifs at h with hok
    · obtain ⟨h1, h2, h3, h4, h5, h6, h7, h8, h9, h10, h11, h12, h13, h14, h15, h16, h17⟩ :=
        hok
      injection h with h
      subst h
      unfold WHIRBasedCircuit.get_proof_size_bits
      have hA : (0 : ℤ) ≤ (cfg.hash_size_bits : ℤ) := by positivity
      have hB : (0 : ℤ) ≤ (cfg.folding_factor : ℤ) * ((cfg.constraint_degree : ℤ) + 1) *
          (extension_field_element_size_bits cfg.field : ℤ) := by positivity
      have hC : (0 : ℤ) ≤ ((List.range' 1 (cfg.num_iterations - 1)).map (fun i =>
          (cfg.hash_size_bits : ℤ) +
            (cfg.num_ood_samples.getD (i - 1) 0 : ℤ) *
              (extension_field_element_size_bits cfg.field : ℤ) +
            (cfg.folding_factor : ℤ) * ((cfg.constraint_degree : ℤ) + 1) *
              (extension_field_element_size_bits cfg.field : ℤ))).sum := by
        apply List.sum_nonneg
        intro x hx
        obtain ⟨i, _, rfl⟩ := List.mem_map.mp hx
        positivity
      have hD : (0 : ℤ) ≤ (2 : ℤ) ^
          (((List.range (cfg.num_iterations + 1)).map
            (fun i => cfg.log_degree - i * cfg.folding_factor)).getD cfg.num_iterations 0) *
          (extension_field_element_size_bits cfg.field : ℤ) := by positivity
      have hE : (0 : ℤ) ≤ ((List.range cfg.num_iterations).map (fun i =>
          (cfg.num_queries.getD i 0 : ℤ) *
            get_size_of_merkle_path_bits
              (2 ^ (((List.range (cfg.num_iterations + 1)).map
                  (fun j => cfg.log_degree - j * cfg.folding_factor)).getD i 0 +
                ((List.range (cfg.num_iterations + 1)).map
                  (fun j => cfg.log_inv_rate + j * (cfg.folding_factor - 1))).getD i 0) /
                2 ^ cfg.folding_factor)
              (2 ^ cfg.folding_factor)
              (if i = 0 then base_field_element_size_bits cfg.field
               else extension_field_element_size_bits cfg.field)
              cfg.hash_size_bits)).sum := by
        apply List.sum_nonneg
        intro x hx
        obtain ⟨i, hi, rfl⟩ := List.mem_map.mp hx
        have hiM : i < cfg.num_iterations := List.mem_range.mp hi
        rw [getD_range_map _ _ _ _ (by omega), getD_range_map _ _ _ _ (by omega)]
        have hmul : (i + 1) * cfg.folding_factor ≤ cfg.num_iterations * cfg.folding_factor :=
          Nat.mul_le_mul_right _ (by omega)
        have hB2 : i * cfg.folding_factor + cfg.folding_factor ≤ cfg.log_degree := by
          have : i * cfg.folding_factor + cfg.folding_factor = (i + 1) * cfg.folding_factor := by
            ring
          omega
        have hffle : cfg.folding_factor ≤ cfg.log_degree - i * cfg.folding_factor := by
          omega
        have hexp : cfg.folding_factor + 1 ≤
            (cfg.log_degree - i * cfg.folding_factor) +
              (cfg.log_inv_rate + i * (cfg.folding_factor - 1)) := by
          omega
        have hleafs : 2 ≤ 2 ^ ((cfg.log_degree - i * cfg.folding_factor) +
              (cfg.log_inv_rate + i * (cfg.folding_factor - 1))) /
            2 ^ cfg.folding_factor := by
          rw [Nat.pow_div (by omega) (by norm_num)]
          calc (2 : ℕ) = 2 ^ 1 := (pow_one 2).symm
            _ ≤ 2 ^ ((cfg.log_degree - i * cfg.folding_factor) +
                (cfg.log_inv_rate + i * (cfg.folding_factor - 1)) - cfg.folding_factor) :=
              Nat.pow_le_pow_right (by norm_num) (by omega)
        exact mul_nonneg (by positivity) (merkle_path_nonneg hleafs)
      linarith
  · intro hash field_bits batch nq domain factors rate hdom hlayers hrate hint
    unfold get_FRI_proof_size_bits
    constructor
    · have h1 : (0 : ℚ) ≤ (hash : ℚ) := by positivity
      have h2 : (0 : ℚ) ≤ (nq : ℚ) *
          ((get_size_of_merkle_path_bits domain batch field_bits hash : ℤ) : ℚ) := by
        have := @merkle_path_nonneg domain batch field_bits hash hdom
        have hc : (0 : ℚ) ≤ ((get_size_of_merkle_path_bits domain batch field_bits hash :
            ℤ) : ℚ) := by exact_mod_cast this
        positivity
      have h3 := fri_layers_nonneg hash field_bits nq factors domain hlayers
      have h4 : (0 : ℚ) ≤ rate * ((foldedDomainSize domain factors : ℕ) : ℚ) *
          ((field_bits : ℕ) : ℚ) := by positivity
      linarith
    · exact isInt_add (isInt_add (isInt_add (isInt_natCast hash)
        (isInt_mul (isInt_natCast nq) (isInt_intCast _)))
        (fri_layers_isInt hash field_bits nq factors domain)) hint

/-- **C6** (witness).  The amended statement applied to the accepted
2-iteration WHIR circuit and to the RISC0-shaped FRI proof-size call
(`domain 2^23`, factors `[16,16,16,16]`, rate `1/4`, 124-bit
extension-field elements). -/
theorem C6_proof_size_nonneg_witness :
    (mkWHIRBasedCircuit whirAcceptConfig = some whirAcceptCircuit ∧
      0 ≤ whirAcceptCircuit.get_proof_size_bits) ∧
    ((2 : ℕ) ≤ 8388608 ∧ friLayersOK 8388608 [16, 16, 16, 16] = true ∧
      (0 : ℚ) ≤ 1/4 ∧
      isInt ((1/4 : ℚ) * (foldedDomainSize 8388608 [16, 16, 16, 16] : ℚ) * (124 : ℚ)) ∧
      0 ≤ get_FRI_proof_size_bits 256 124 283 50 8388608 [16, 16, 16, 16] (1/4) ∧
      isInt (get_FRI_proof_size_bits 256 124 283 50 8388608 [16, 16, 16, 16] (1/4))) := by
  have hmk : mkWHIRBasedCircuit whirAcceptConfig = some whirAcceptCircuit := by decide
  have hint : isInt ((1/4 : ℚ) * (foldedDomainSize 8388608 [16, 16, 16, 16] : ℚ) *
      (124 : ℚ)) := by
    rw [show foldedDomainSize 8388608 [16, 16, 16, 16] = 128 from by decide]
    exact ⟨3968, by norm_num⟩
  have hfri := C6_proof_size_nonneg.2 256 124 283 50 8388608 [16, 16, 16, 16] (1/4)
    (by norm_num) (by decide) (by norm_num) hint
  exact ⟨⟨hmk, C6_proof_size_nonneg.1 whirAcceptConfig whirAcceptCircuit hmk⟩,
    by norm_num, by decide, by norm_num, hint, hfri.1, hfri.2⟩

end Soundcalc
